import Mathlib

/-!
# Verification of the smart-scheduling engine and natural-language task parser

Shallow embedding of the two algorithmic core files of the todo application:
the scheduling engine (`getSmartSchedulingSuggestions`, `findFreeTimeSlots`,
`checkForConflicts`, `getNextAvailableSlot`) and the natural-language parser
(`parseNaturalLanguage`).

Modelling conventions:
* A JavaScript `Date` is its epoch timestamp in milliseconds, an `Int`.
  Local time is modelled as UTC (the code makes no timezone guarantee).
* The source computes `gapDuration = (a - b) / (1000 * 60)` as a float and
  compares it with a number of minutes; the embedding clears the positive
  denominator, comparing `a - b` with `minutes * 60000` directly.
* The source reads the system clock (`new Date()`) inside
  `getSmartSchedulingSuggestions` and `parseNaturalLanguage`; the embedding
  makes that clock read an explicit `now` argument.
* `date-fns` helpers (`addMinutes`, `setHours`, `areIntervalsOverlapping`,
  `startOfDay`, `endOfDay`, `addDays`, `addMonths`, …) are embedded directly
  on the millisecond timeline; `areIntervalsOverlapping` normalises each
  interval's endpoints and uses strict comparisons (its default,
  non-inclusive behaviour).
-/

namespace Todo

def msPerMinute : Int := 60000

def msPerHour : Int := 3600000

def msPerDay : Int := 86400000

/-- `date-fns` `addMinutes`. -/
def addMinutes (t : Int) (m : Int) : Int := t + m * msPerMinute

/-- `date-fns` `addHours`. -/
def addHours (t : Int) (h : Int) : Int := t + h * msPerHour

/-- `date-fns` `startOfDay`: midnight of the civil day containing `t`. -/
def startOfDay (t : Int) : Int := t - t.emod msPerDay

/-- `date-fns` `endOfDay`: 23:59:59.999 of the civil day containing `t`. -/
def endOfDay (t : Int) : Int := startOfDay t + (msPerDay - 1)

/-- JS `Date.getHours` (local time modelled as UTC). -/
def getHours (t : Int) : Int := (t.emod msPerDay).ediv msPerHour

/-- JS `Date.getMinutes`. -/
def getMinutes (t : Int) : Int := (t.emod msPerHour).ediv msPerMinute

/-- `date-fns` `setMinutes`: replaces the minute component, keeping
seconds and milliseconds. -/
def setMinutes (t : Int) (m : Int) : Int :=
  t - getMinutes t * msPerMinute + m * msPerMinute

/-- `date-fns` `setHours`: replaces the hour component, keeping minutes,
seconds and milliseconds; an out-of-range hour rolls over into adjacent
days exactly as the native `Date.setHours` does on the timestamp. -/
def setHours (t : Int) (h : Int) : Int :=
  startOfDay t + h * msPerHour + t.emod msPerHour

/-- JS `Date.getDay`: day of week, 0 = Sunday (1970-01-01 was a Thursday). -/
def getDay (t : Int) : Int := (t.ediv msPerDay + 4).emod 7

inductive Priority
  | low
  | medium
  | high
  | urgent
deriving DecidableEq, Repr

inductive Confidence
  | high
  | medium
  | low
deriving DecidableEq, Repr

/-- `TaskTimeSlot` of the scheduling engine: an existing commitment. -/
structure TaskTimeSlot where
  start : Int
  «end» : Int
  title : String
  priority : Priority
deriving DecidableEq, Repr

/-- A `{start, end}` pair as produced by `findFreeTimeSlots`. -/
structure Interval where
  start : Int
  «end» : Int
deriving DecidableEq, Repr

structure SchedulingSuggestion where
  suggestedTime : Int
  reason : String
  confidence : Confidence
deriving DecidableEq, Repr

structure SchedulingOptions where
  preferredDate : Option Int
  duration : Option Int
  priority : Option Priority
  avoidConflicts : Option Bool
deriving DecidableEq, Repr

/-- `{}`: the options object with every field absent. -/
def SchedulingOptions.default : SchedulingOptions := ⟨none, none, none, none⟩

def DEFAULT_WORKING_HOURS_start : Int := 9

def DEFAULT_WORKING_HOURS_end : Int := 18

def BREAK_DURATION_MINUTES : Int := 15

/-- `date-fns` `areIntervalsOverlapping` with default options: each
interval's endpoints are sorted, then overlap is strict comparison on both
sides (touching endpoints do not overlap). -/
def areIntervalsOverlapping (a b : Interval) : Bool :=
  let ls := min a.start a.«end»
  let le := max a.start a.«end»
  let rs := min b.start b.«end»
  let re := max b.start b.«end»
  decide (ls < re ∧ rs < le)

/-- `checkForConflicts(proposedTime, durationMinutes, existingTasks)`. -/
def checkForConflicts (proposedTime : Int) (durationMinutes : Int)
    (existingTasks : List TaskTimeSlot) : Bool :=
  let proposedEnd := addMinutes proposedTime durationMinutes
  existingTasks.any fun task =>
    areIntervalsOverlapping ⟨proposedTime, proposedEnd⟩ ⟨task.start, task.«end»⟩

/-- The commitment loop of `findFreeTimeSlots`, with the post-loop check of
the remaining time folded into the base case. `currentTime` is the cursor. -/
def findFreeSlotsAux (durationMinutes : Int) (workingEnd : Int) :
    Int → List TaskTimeSlot → List Interval
  | currentTime, [] =>
    if currentTime < workingEnd then
      if workingEnd - currentTime ≥ durationMinutes * msPerMinute then
        let slotEnd := addMinutes currentTime durationMinutes
        if slotEnd ≤ workingEnd then [⟨currentTime, slotEnd⟩] else []
      else []
    else []
  | currentTime, task :: rest =>
    (if currentTime < task.start then
      if task.start - currentTime ≥ (durationMinutes + BREAK_DURATION_MINUTES) * msPerMinute then
        let slotEnd := addMinutes currentTime durationMinutes
        if slotEnd ≤ task.start then [⟨currentTime, slotEnd⟩] else []
      else []
    else []) ++ findFreeSlotsAux durationMinutes workingEnd
      (addMinutes task.«end» BREAK_DURATION_MINUTES) rest

/-- `findFreeTimeSlots(targetDate, existingTasks, durationMinutes)`. -/
def findFreeTimeSlots (targetDate : Int) (existingTasks : List TaskTimeSlot)
    (durationMinutes : Int) : List Interval :=
  let workingStart := setHours (setMinutes targetDate 0) DEFAULT_WORKING_HOURS_start
  let workingEnd := setHours (setMinutes targetDate 0) DEFAULT_WORKING_HOURS_end
  findFreeSlotsAux durationMinutes workingEnd workingStart existingTasks

/-- The probe loop of `getNextAvailableSlot`: `fuel` probes remain. -/
def nextSlotAux (durationMinutes : Int) (existingTasks : List TaskTimeSlot) :
    Nat → Int → Option Int
  | 0, _ => none
  | fuel + 1, currentTime =>
    if checkForConflicts currentTime durationMinutes existingTasks then
      nextSlotAux durationMinutes existingTasks fuel (addMinutes currentTime 15)
    else some currentTime

/-- `getNextAvailableSlot(startTime, durationMinutes, existingTasks)`:
up to `24 * 4 = 96` probes, 15 minutes apart. -/
def getNextAvailableSlot (startTime : Int) (durationMinutes : Int)
    (existingTasks : List TaskTimeSlot) : Option Int :=
  nextSlotAux durationMinutes existingTasks 96 startTime

/-- `date-fns` `format(t, 'h:mm a')`. -/
def formatHmmA (t : Int) : String :=
  let h := getHours t
  let m := getMinutes t
  let h12 := if h.emod 12 = 0 then (12 : Int) else h.emod 12
  let mStr := if m < 10 then "0" ++ toString m else toString m
  toString h12 ++ ":" ++ mStr ++ " " ++ (if h < 12 then "AM" else "PM")

/-- `generateSuggestionReason(slot, existingTasks, priority)`. -/
def generateSuggestionReason (slot : Interval) (existingTasks : List TaskTimeSlot)
    (_priority : Priority) : String :=
  let timeStr := formatHmmA slot.start
  let hour := getHours slot.start
  if 9 ≤ hour ∧ hour ≤ 11 then
    "Great morning slot at " ++ timeStr ++ " - high productivity time"
  else if 14 ≤ hour ∧ hour ≤ 16 then
    "Good afternoon slot at " ++ timeStr ++ " - focused work time"
  else if 11 ≤ hour ∧ hour ≤ 13 then
    "Lunch hour slot at " ++ timeStr ++ " - good for meetings"
  else
    let nearbyTasks := existingTasks.filter fun task =>
      |task.start - slot.start| < 2 * msPerHour
    if nearbyTasks.length = 0 then
      "Free slot at " ++ timeStr ++ " - no nearby tasks"
    else
      "Available slot at " ++ timeStr ++ " - fits well with your schedule"

/-- `calculateConfidence(slot, existingTasks, priority)`; the priority
argument is accepted and ignored, as in the source. -/
def calculateConfidence (slot : Interval) (_existingTasks : List TaskTimeSlot)
    (_priority : Priority) : Confidence :=
  let hour := getHours slot.start
  if (9 ≤ hour ∧ hour ≤ 11) ∨ (14 ≤ hour ∧ hour ≤ 16) then .high
  else if DEFAULT_WORKING_HOURS_start ≤ hour ∧ hour ≤ DEFAULT_WORKING_HOURS_end then .medium
  else .low

/-- Stable insertion of one task into a list sorted ascending by `start`. -/
def insertByStart (x : TaskTimeSlot) : List TaskTimeSlot → List TaskTimeSlot
  | [] => [x]
  | y :: ys => if x.start ≤ y.start then x :: y :: ys else y :: insertByStart x ys

/-- `tasksOnDate.sort((a, b) => a.start.getTime() - b.start.getTime())`:
a stable sort ascending by start time. -/
def sortByStart (l : List TaskTimeSlot) : List TaskTimeSlot :=
  l.foldr insertByStart []

/-- `task.start.toDateString() === targetDate.toDateString()`: the two
timestamps fall on the same civil day. -/
def sameDateString (a b : Int) : Bool :=
  a.ediv msPerDay = b.ediv msPerDay

/-- The target date chosen by `getSmartSchedulingSuggestions`:
`preferredDate || (now.getHours() < 18 ? now : addHours(startOfDay(addHours(now, 24)), 9))`.
`now` is the internal `new Date()` read, made explicit. -/
def targetDateOf (options : SchedulingOptions) (now : Int) : Int :=
  options.preferredDate.getD
    (if getHours now < 18 then now else addHours (startOfDay (addHours now 24)) 9)

/-- The commitments of the target day, sorted by start, as
`getSmartSchedulingSuggestions` prepares them. -/
def tasksOnDateOf (existingTasks : List TaskTimeSlot) (options : SchedulingOptions)
    (now : Int) : List TaskTimeSlot :=
  sortByStart (existingTasks.filter fun task =>
    sameDateString task.start (targetDateOf options now))

/-- The free slots `getSmartSchedulingSuggestions` computes for the target day. -/
def freeSlotsOf (existingTasks : List TaskTimeSlot) (options : SchedulingOptions)
    (now : Int) : List Interval :=
  findFreeTimeSlots (targetDateOf options now) (tasksOnDateOf existingTasks options now)
    (options.duration.getD 60)

/-- The suggestion list built from the first five free slots
(`freeSlots.slice(0, 5)` mapped to suggestions). -/
def suggestionsOf (existingTasks : List TaskTimeSlot) (options : SchedulingOptions)
    (now : Int) : List SchedulingSuggestion :=
  ((freeSlotsOf existingTasks options now).take 5).map fun slot =>
    SchedulingSuggestion.mk slot.start
      (generateSuggestionReason slot (tasksOnDateOf existingTasks options now)
        (options.priority.getD .medium))
      (calculateConfidence slot (tasksOnDateOf existingTasks options now)
        (options.priority.getD .medium))

/-- `getSmartSchedulingSuggestions(existingTasks, options)`; the internal
`new Date()` read is the explicit argument `now`. -/
def getSmartSchedulingSuggestions (existingTasks : List TaskTimeSlot)
    (options : SchedulingOptions) (now : Int) : List SchedulingSuggestion :=
  if (suggestionsOf existingTasks options now).length = 0 then
    [⟨addHours (startOfDay (addHours (targetDateOf options now) 24)) 9,
      "No available slots today. Suggested for tomorrow morning.", .medium⟩]
  else suggestionsOf existingTasks options now

/-! ## Conflict detection (`checkForConflicts`) -/

theorem areIntervalsOverlapping_iff (a b : Interval) :
    areIntervalsOverlapping a b = true ↔
      min a.start a.«end» < max b.start b.«end» ∧
        min b.start b.«end» < max a.start a.«end» := by
  simp [areIntervalsOverlapping]

theorem overlap_strict_iff (p c s e : Int) (hc : 0 < c) (hse : s < e) :
    (min p (p + c) < max s e ∧ min s e < max p (p + c)) ↔
      max p s < min (p + c) e := by
  omega

theorem touching_not_overlap (c s e : Int) (hc : 0 < c) (hse : s < e) :
    ¬(min e (e + c) < max s e ∧ min s e < max e (e + c)) := by
  omega

theorem min_lt_max_of_pos (p c : Int) (hc : 0 < c) :
    min p (p + c) < max p (p + c) := by
  omega

theorem disjoint_not_overlap (p c s e : Int) (hc : 0 < c) (hse : s < e)
    (hd : p + c ≤ s ∨ e ≤ p) :
    ¬(min p (p + c) < max s e ∧ min s e < max p (p + c)) := by
  omega

theorem areIntervalsOverlapping_eq_false (a b : Interval) :
    areIntervalsOverlapping a b = false ↔
      ¬(min a.start a.«end» < max b.start b.«end» ∧
        min b.start b.«end» < max a.start a.«end») := by
  simp [areIntervalsOverlapping]

/-- C2: `checkForConflicts` is true exactly when the proposed half-open
interval `[p, p + duration)` intersects some commitment's half-open
interval (touching endpoints do not count); in particular it is true for a
proposed interval identical to a listed commitment, and a commitment whose
end equals the proposed start never registers as a conflict on its own. -/
theorem checkForConflicts_overlap_spec (p D : Int) (tasks : List TaskTimeSlot)
    (hD : 0 < D) (hT : ∀ t ∈ tasks, t.start < t.«end») :
    (checkForConflicts p D tasks = true ↔
      ∃ t ∈ tasks, max p t.start < min (p + D * msPerMinute) t.«end») ∧
    (∀ t ∈ tasks, t.start = p → t.«end» = p + D * msPerMinute →
      checkForConflicts p D tasks = true) ∧
    (∀ s e ti pr, s < e → checkForConflicts e D [TaskTimeSlot.mk s e ti pr] = false) := by
  have hMs : (0 : Int) < msPerMinute := by decide
  have hpe : 0 < D * msPerMinute := mul_pos hD hMs
  refine ⟨?_, ?_, ?_⟩
  · simp only [checkForConflicts, List.any_eq_true, areIntervalsOverlapping_iff,
      addMinutes]
    constructor
    · rintro ⟨t, ht, h⟩
      exact ⟨t, ht, (overlap_strict_iff p (D * msPerMinute) t.start t.«end» hpe
        (hT t ht)).mp h⟩
    · rintro ⟨t, ht, h⟩
      exact ⟨t, ht, (overlap_strict_iff p (D * msPerMinute) t.start t.«end» hpe
        (hT t ht)).mpr h⟩
  · intro t ht h1 h2
    simp only [checkForConflicts, List.any_eq_true, areIntervalsOverlapping_iff,
      addMinutes]
    refine ⟨t, ht, ?_⟩
    rw [h1, h2]
    exact ⟨min_lt_max_of_pos p (D * msPerMinute) hpe,
      min_lt_max_of_pos p (D * msPerMinute) hpe⟩
  · intro s e ti pr hse
    simp only [checkForConflicts, List.any_eq_false, areIntervalsOverlapping_iff,
      addMinutes]
    intro t ht
    simp only [List.mem_singleton] at ht
    subst ht
    simp only [Bool.not_eq_true, ← Bool.decide_and, decide_eq_false_iff_not]
    exact touching_not_overlap (D * msPerMinute) s e hpe hse

/-- Witness for `checkForConflicts_overlap_spec`: a proposed interval
identical to the single commitment `[0, 30 min)` conflicts. -/
theorem checkForConflicts_overlap_spec_witness :
    checkForConflicts 0 30 [TaskTimeSlot.mk 0 1800000 "x" .medium] = true :=
  (checkForConflicts_overlap_spec 0 30 [TaskTimeSlot.mk 0 1800000 "x" .medium]
      (by decide) (by decide)).2.1
    (TaskTimeSlot.mk 0 1800000 "x" .medium) (by decide) rfl (by decide)

/-! ## Next available slot (`getNextAvailableSlot`) -/

theorem nextSlotAux_spec (D : Int) (tasks : List TaskTimeSlot) :
    ∀ (n : Nat) (cur : Int),
      (nextSlotAux D tasks n cur = none ↔
        ∀ k : Nat, k < n →
          checkForConflicts (addMinutes cur (15 * (k : Int))) D tasks = true) ∧
      (∀ t : Int, nextSlotAux D tasks n cur = some t ↔
        ∃ k : Nat, k < n ∧ t = addMinutes cur (15 * (k : Int)) ∧
          checkForConflicts t D tasks = false ∧
          ∀ j : Nat, j < k →
            checkForConflicts (addMinutes cur (15 * (j : Int))) D tasks = true) := by
  intro n
  induction n with
  | zero =>
    intro cur
    constructor
    · simp [nextSlotAux]
    · intro t
      simp [nextSlotAux]
  | succ m ih =>
    intro cur
    have hstep : ∀ k : Nat,
        addMinutes (addMinutes cur 15) (15 * (k : Int)) =
          addMinutes cur (15 * ((k : Int) + 1)) := by
      intro k
      simp only [addMinutes]
      ring
    by_cases h : checkForConflicts cur D tasks
    · have h0 : addMinutes cur (15 * ((0 : Nat) : Int)) = cur := by
        simp [addMinutes]
      constructor
      · rw [show nextSlotAux D tasks (m + 1) cur =
            nextSlotAux D tasks m (addMinutes cur 15) by simp [nextSlotAux, h]]
        rw [(ih (addMinutes cur 15)).1]
        constructor
        · intro hall k hk
          match k with
          | 0 => simpa [addMinutes] using h
          | j + 1 =>
            have := hall j (by omega)
            rw [hstep j] at this
            simpa [Nat.cast_add, Nat.cast_one] using this
        · intro hall k hk
          rw [hstep k]
          have := hall (k + 1) (by omega)
          simpa [Nat.cast_add, Nat.cast_one] using this
      · intro t
        rw [show nextSlotAux D tasks (m + 1) cur =
            nextSlotAux D tasks m (addMinutes cur 15) by simp [nextSlotAux, h]]
        rw [(ih (addMinutes cur 15)).2 t]
        constructor
        · rintro ⟨k, hk, ht, hfree, hbusy⟩
          refine ⟨k + 1, by omega, ?_, hfree, ?_⟩
          · rw [ht, hstep k]
            simp [Nat.cast_add, Nat.cast_one]
          · intro j hj
            match j with
            | 0 => simpa [addMinutes] using h
            | i + 1 =>
              have := hbusy i (by omega)
              rw [hstep i] at this
              simpa [Nat.cast_add, Nat.cast_one] using this
        · rintro ⟨k, hk, ht, hfree, hbusy⟩
          match k with
          | 0 =>
            rw [ht, h0] at hfree
            simp [hfree] at h
          | j + 1 =>
            refine ⟨j, by omega, ?_, hfree, ?_⟩
            · rw [ht, hstep j]
              simp [Nat.cast_add, Nat.cast_one]
            · intro i hi
              have := hbusy (i + 1) (by omega)
              rw [hstep i]
              simpa [Nat.cast_add, Nat.cast_one] using this
    · have hres : nextSlotAux D tasks (m + 1) cur = some cur := by
        simp [nextSlotAux, h]
      constructor
      · rw [hres]
        simp only [reduceCtorEq, false_iff, not_forall]
        refine ⟨0, by omega, ?_⟩
        simpa [addMinutes] using h
      · intro t
        rw [hres]
        constructor
        · intro ht
          injection ht with ht
          refine ⟨0, by omega, by simp [← ht, addMinutes], ?_, by omega⟩
          rw [← ht]
          simpa using h
        · rintro ⟨k, hk, ht, hfree, hbusy⟩
          match k with
          | 0 => simp [ht, addMinutes]
          | j + 1 =>
            have h5 := hbusy 0 (by omega)
            simp only [Nat.cast_zero, mul_zero] at h5
            simp only [addMinutes, mul_zero, zero_mul, add_zero] at h5
            simp [h5] at h

/-- C4: `getNextAvailableSlot` probes the 96 times
`startTime + k * 15 min`, `0 ≤ k < 96`, in order, returns the first one
with no conflict per `checkForConflicts`, and returns `none` exactly when
every probe conflicts (so a fully booked 24 hours yields `none`). -/
theorem getNextAvailableSlot_spec (startTime D : Int) (tasks : List TaskTimeSlot) :
    (getNextAvailableSlot startTime D tasks = none ↔
      ∀ k : Nat, k < 96 →
        checkForConflicts (addMinutes startTime (15 * (k : Int))) D tasks = true) ∧
    (∀ t : Int, getNextAvailableSlot startTime D tasks = some t ↔
      ∃ k : Nat, k < 96 ∧ t = addMinutes startTime (15 * (k : Int)) ∧
        checkForConflicts t D tasks = false ∧
        ∀ j : Nat, j < k →
          checkForConflicts (addMinutes startTime (15 * (j : Int))) D tasks = true) :=
  nextSlotAux_spec D tasks 96 startTime

/-! ## Free slots (`findFreeTimeSlots`) -/

/-- In a chain of pairwise non-overlapping commitments sorted by start, the
head ends no later than any later commitment starts. -/
theorem chain_head_end_le (t : TaskTimeSlot) (ts : List TaskTimeSlot)
    (hchain : List.Chain' (fun a b => a.«end» ≤ b.start) (t :: ts))
    (hvalid : ∀ x ∈ t :: ts, x.start < x.«end») :
    ∀ u ∈ ts, t.«end» ≤ u.start := by
  induction ts generalizing t with
  | nil => simp
  | cons u us ih =>
    intro w hw
    rw [List.chain'_cons] at hchain
    have h1 : t.«end» ≤ u.start := hchain.1
    rcases List.mem_cons.mp hw with h | h
    · exact h ▸ h1
    · have hu : u.«end» ≤ w.start :=
        ih u hchain.2 (fun x hx => hvalid x (List.mem_cons_of_mem t hx)) w h
      have huv : u.start < u.«end» := hvalid u (by simp)
      omega

/-- Every slot the loop emits starts at the current cursor or after some
processed commitment's end plus the break. -/
theorem findFreeSlotsAux_start_lb (D : Int) (wEnd : Int) :
    ∀ (tasks : List TaskTimeSlot) (cur : Int),
      ∀ s ∈ findFreeSlotsAux D wEnd cur tasks,
        cur ≤ s.start ∨ ∃ t ∈ tasks, addMinutes t.«end» BREAK_DURATION_MINUTES ≤ s.start := by
  intro tasks
  induction tasks with
  | nil =>
    intro cur s hs
    simp only [findFreeSlotsAux] at hs
    split at hs
    · split at hs
      · split at hs
        · simp only [List.mem_singleton] at hs
          subst hs
          exact Or.inl le_rfl
        · simp at hs
      · simp at hs
    · simp at hs
  | cons t rest ih =>
    intro cur s hs
    simp only [findFreeSlotsAux, List.mem_append] at hs
    rcases hs with hs | hs
    · split at hs
      · split at hs
        · split at hs
          · simp only [List.mem_singleton] at hs
            subst hs
            exact Or.inl le_rfl
          · simp at hs
        · simp at hs
      · simp at hs
    · rcases ih (addMinutes t.«end» BREAK_DURATION_MINUTES) s hs with h | ⟨u, hu, h⟩
      · exact Or.inr ⟨t, by simp, h⟩
      · exact Or.inr ⟨u, List.mem_cons_of_mem t hu, h⟩

/-- Every slot the loop emits has length `durationMinutes` and is disjoint
from every commitment of a pairwise non-overlapping, sorted list. -/
theorem findFreeSlotsAux_disjoint (D : Int) (wEnd : Int) :
    ∀ (tasks : List TaskTimeSlot) (cur : Int),
      List.Chain' (fun a b => a.«end» ≤ b.start) tasks →
      (∀ t ∈ tasks, t.start < t.«end») →
      ∀ s ∈ findFreeSlotsAux D wEnd cur tasks,
        s.«end» = s.start + D * msPerMinute ∧
        ∀ t ∈ tasks, s.«end» ≤ t.start ∨ t.«end» ≤ s.start := by
  intro tasks
  induction tasks with
  | nil =>
    intro cur _ _ s hs
    simp only [findFreeSlotsAux] at hs
    split at hs
    · split at hs
      · split at hs
        · simp only [List.mem_singleton] at hs
          subst hs
          exact ⟨by simp [addMinutes], by simp⟩
        · simp at hs
      · simp at hs
    · simp at hs
  | cons t rest ih =>
    intro cur hchain hvalid s hs
    have hvrest : ∀ x ∈ rest, x.start < x.«end» :=
      fun x hx => hvalid x (List.mem_cons_of_mem t hx)
    simp only [findFreeSlotsAux, List.mem_append] at hs
    rcases hs with hs | hs
    · have hle : ∀ u ∈ rest, t.«end» ≤ u.start := chain_head_end_le t rest hchain hvalid
      split at hs
      · split at hs
        · split at hs
          · rename_i h1 h2 h3
            simp only [List.mem_singleton] at hs
            subst hs
            refine ⟨by simp [addMinutes], ?_⟩
            intro u hu
            rcases List.mem_cons.mp hu with h | h
            · subst h
              exact Or.inl h3
            · have hu1 := hle u h
              have hu2 := hvalid t (by simp)
              refine Or.inl ?_
              show addMinutes cur D ≤ u.start
              simp only [addMinutes] at h3 ⊢
              omega
          · simp at hs
        · simp at hs
      · simp at hs
    · have hrec := ih (addMinutes t.«end» BREAK_DURATION_MINUTES) hchain.tail hvrest s hs
      refine ⟨hrec.1, ?_⟩
      intro u hu
      rcases List.mem_cons.mp hu with h | h
      · subst h
        rcases findFreeSlotsAux_start_lb D wEnd rest
            (addMinutes u.«end» BREAK_DURATION_MINUTES) s hs with hlb | ⟨w, hw, hlb⟩
        · right
          simp only [addMinutes, BREAK_DURATION_MINUTES, msPerMinute] at hlb
          omega
        · right
          have h1 := chain_head_end_le u rest hchain hvalid w hw
          have h2 := hvrest w hw
          simp only [addMinutes, BREAK_DURATION_MINUTES, msPerMinute] at hlb
          omega
      · exact hrec.2 u h

/-- C1 (amended): when the commitments have `start < end`, are sorted by
start and are pairwise non-overlapping (each ends no later than the next
starts), every slot `findFreeTimeSlots` returns reports no conflict via
`checkForConflicts` against the same commitments. -/
theorem findFreeTimeSlots_no_conflict (targetDate D : Int) (tasks : List TaskTimeSlot)
    (hchain : List.Chain' (fun a b => a.«end» ≤ b.start) tasks)
    (hvalid : ∀ t ∈ tasks, t.start < t.«end») (hD : 0 < D) :
    ∀ s ∈ findFreeTimeSlots targetDate tasks D,
      checkForConflicts s.start D tasks = false := by
  intro s hs
  have hMs : (0 : Int) < msPerMinute := by decide
  have hpe : 0 < D * msPerMinute := mul_pos hD hMs
  obtain ⟨hlen, hdisj⟩ := findFreeSlotsAux_disjoint D
    (setHours (setMinutes targetDate 0) DEFAULT_WORKING_HOURS_end) tasks
    (setHours (setMinutes targetDate 0) DEFAULT_WORKING_HOURS_start) hchain hvalid s hs
  show (tasks.any fun task =>
      areIntervalsOverlapping ⟨s.start, addMinutes s.start D⟩
        ⟨task.start, task.«end»⟩) = false
  rw [List.any_eq_false]
  intro t ht
  have hd := hdisj t ht
  have hv := hvalid t ht
  rw [hlen] at hd
  have hno := disjoint_not_overlap s.start (D * msPerMinute) t.start t.«end» hpe hv hd
  rw [Bool.not_eq_true, areIntervalsOverlapping_eq_false]
  simpa [addMinutes] using hno

/-- The commitments of the counterexample to C1 as stated: sorted by start,
each with `start < end`, but the first (9:00–17:00) overlaps the second
(10:00–11:00). -/
def overlappingTasks : List TaskTimeSlot :=
  [⟨32400000, 61200000, "long meeting", .medium⟩,
   ⟨36000000, 39600000, "standup", .medium⟩]

/-- Counterexample to C1 as stated: for commitments that are sorted by
start with `start < end` but overlap each other, `findFreeTimeSlots` emits
the slot 11:15–12:15, which `checkForConflicts` reports as conflicting. -/
theorem findFreeTimeSlots_conflict_cex :
    (∀ t ∈ overlappingTasks, t.start < t.«end») ∧
    List.Chain' (fun a b => a.start ≤ b.start) overlappingTasks ∧
    (0 : Int) < 60 ∧
    findFreeTimeSlots 0 overlappingTasks 60 = [⟨40500000, 44100000⟩] ∧
    checkForConflicts 40500000 60 overlappingTasks = true := by
  refine ⟨by decide, ?_, by decide, by decide, by decide⟩
  norm_num [overlappingTasks]

/-- Witness for `findFreeTimeSlots_no_conflict`: one 9:00–10:00 commitment
on day 0; the emitted slot 10:15–11:15 reports no conflict. -/
theorem findFreeTimeSlots_no_conflict_witness :
    checkForConflicts 36900000 60 [⟨32400000, 36000000, "m", .medium⟩] = false :=
  findFreeTimeSlots_no_conflict 0 60 [⟨32400000, 36000000, "m", .medium⟩]
    (by simp) (by decide) (by decide) ⟨36900000, 40500000⟩ (by decide)

/-- Every slot the loop emits stays inside the working window, provided the
cursor starts inside it and every commitment lies inside it. -/
theorem findFreeSlotsAux_within (D : Int) (wStart wEnd : Int) :
    ∀ (tasks : List TaskTimeSlot) (cur : Int),
      (∀ t ∈ tasks, wStart ≤ t.start ∧ t.start < t.«end» ∧ t.«end» ≤ wEnd) →
      wStart ≤ cur →
      ∀ s ∈ findFreeSlotsAux D wEnd cur tasks,
        wStart ≤ s.start ∧ s.«end» ≤ wEnd := by
  intro tasks
  induction tasks with
  | nil =>
    intro cur _ hcur s hs
    simp only [findFreeSlotsAux] at hs
    split at hs
    · split at hs
      · split at hs
        · rename_i h1 h2 h3
          simp only [List.mem_singleton] at hs
          subst hs
          exact ⟨hcur, h3⟩
        · simp at hs
      · simp at hs
    · simp at hs
  | cons t rest ih =>
    intro cur htasks hcur s hs
    have ht := htasks t (by simp)
    simp only [findFreeSlotsAux, List.mem_append] at hs
    rcases hs with hs | hs
    · split at hs
      · split at hs
        · split at hs
          · rename_i h1 h2 h3
            simp only [List.mem_singleton] at hs
            subst hs
            simp only [addMinutes] at h3 ⊢
            exact ⟨hcur, by omega⟩
          · simp at hs
        · simp at hs
      · simp at hs
    · refine ih (addMinutes t.«end» BREAK_DURATION_MINUTES)
        (fun x hx => htasks x (List.mem_cons_of_mem t hx)) ?_ s hs
      simp only [addMinutes, BREAK_DURATION_MINUTES, msPerMinute]
      omega

/-- C5 (amended): when every commitment lies inside the working window
`[9:00, 18:00)` of the target day, every slot `findFreeTimeSlots` returns
is contained in that window. -/
theorem findFreeTimeSlots_within_window (targetDate D : Int) (tasks : List TaskTimeSlot)
    (h : ∀ t ∈ tasks,
      setHours (setMinutes targetDate 0) DEFAULT_WORKING_HOURS_start ≤ t.start ∧
      t.start < t.«end» ∧
      t.«end» ≤ setHours (setMinutes targetDate 0) DEFAULT_WORKING_HOURS_end) :
    ∀ s ∈ findFreeTimeSlots targetDate tasks D,
      setHours (setMinutes targetDate 0) DEFAULT_WORKING_HOURS_start ≤ s.start ∧
      s.«end» ≤ setHours (setMinutes targetDate 0) DEFAULT_WORKING_HOURS_end :=
  findFreeSlotsAux_within D
    (setHours (setMinutes targetDate 0) DEFAULT_WORKING_HOURS_start)
    (setHours (setMinutes targetDate 0) DEFAULT_WORKING_HOURS_end)
    tasks _ h le_rfl

/-- The commitments of the counterexample to C5 as stated: 8:00–17:30 and
19:00–20:00 on the target day, sorted, valid, non-overlapping. -/
def outsideWindowTasks : List TaskTimeSlot :=
  [⟨28800000, 63000000, "all day", .medium⟩,
   ⟨68400000, 72000000, "dinner", .medium⟩]

/-- Counterexample to C5 as stated: with a commitment ending at 17:30 and
another starting at 19:00, `findFreeTimeSlots` emits the slot 17:45–18:45,
which ends after the 18:00 end of the working window. -/
theorem findFreeTimeSlots_window_cex :
    (∀ t ∈ outsideWindowTasks, t.start < t.«end») ∧
    List.Chain' (fun a b => a.«end» ≤ b.start) outsideWindowTasks ∧
    (0 : Int) < 60 ∧
    findFreeTimeSlots 0 outsideWindowTasks 60 = [⟨63900000, 67500000⟩] ∧
    ¬((67500000 : Int) ≤ setHours (setMinutes 0 0) DEFAULT_WORKING_HOURS_end) := by
  refine ⟨by decide, ?_, by decide, by decide, by decide⟩
  norm_num [outsideWindowTasks]

/-- Witness for `findFreeTimeSlots_within_window`: a 10:00–11:00 commitment
inside the window; the slot 9:00–9:30 stays inside the window. -/
theorem findFreeTimeSlots_within_window_witness :
    setHours (setMinutes 0 0) DEFAULT_WORKING_HOURS_start ≤ (32400000 : Int) ∧
    (34200000 : Int) ≤ setHours (setMinutes 0 0) DEFAULT_WORKING_HOURS_end :=
  findFreeTimeSlots_within_window 0 30 [⟨36000000, 39600000, "t", .medium⟩]
    (by decide) ⟨32400000, 34200000⟩ (by decide)

/-! ## Suggestion list shape (`getSmartSchedulingSuggestions`) -/

/-- `addHours(startOfDay(addHours(target, 24)), 9)` is 9:00 on the civil day
after the target day. -/
theorem tomorrow_nine (target : Int) :
    addHours (startOfDay (addHours target 24)) 9 =
      startOfDay target + msPerDay + 9 * msPerHour := by
  norm_num [addHours, startOfDay, msPerDay, msPerHour]
  have h : (target + 86400000 * 1).emod 86400000 = target.emod 86400000 :=
    Int.add_mul_emod_self_left target 86400000 1
  norm_num at h
  omega

/-- C3: `getSmartSchedulingSuggestions` always returns between 1 and 5
suggestions; when the target day has no free slot it returns exactly the
fallback suggestion at 9:00 on the day after the target day, with
confidence `medium`. -/
theorem getSmartSchedulingSuggestions_count (existingTasks : List TaskTimeSlot)
    (options : SchedulingOptions) (now : Int) :
    1 ≤ (getSmartSchedulingSuggestions existingTasks options now).length ∧
    (getSmartSchedulingSuggestions existingTasks options now).length ≤ 5 ∧
    (freeSlotsOf existingTasks options now = [] →
      getSmartSchedulingSuggestions existingTasks options now =
        [⟨startOfDay (targetDateOf options now) + msPerDay + 9 * msPerHour,
          "No available slots today. Suggested for tomorrow morning.", .medium⟩]) := by
  have hlen : (suggestionsOf existingTasks options now).length ≤ 5 := by
    simp only [suggestionsOf, List.length_map, List.length_take]
    omega
  by_cases h : (suggestionsOf existingTasks options now).length = 0
  · have hres : getSmartSchedulingSuggestions existingTasks options now =
        [⟨startOfDay (targetDateOf options now) + msPerDay + 9 * msPerHour,
          "No available slots today. Suggested for tomorrow morning.", .medium⟩] := by
      unfold getSmartSchedulingSuggestions
      rw [if_pos h, tomorrow_nine]
    exact ⟨by simp [hres], by simp [hres], fun _ => hres⟩
  · have hres : getSmartSchedulingSuggestions existingTasks options now =
        suggestionsOf existingTasks options now := by
      unfold getSmartSchedulingSuggestions
      rw [if_neg h]
    refine ⟨?_, ?_, ?_⟩
    · rw [hres]
      omega
    · rw [hres]
      exact hlen
    · intro hfs
      exact absurd (by simp [suggestionsOf, hfs]) h

/-! ## Determinism and the internal clock read -/

/-- Counterexample to C10 as stated: with identical arguments (no
commitments, default options), the output of `getSmartSchedulingSuggestions`
changes with the internally-read current time (10:00 vs 20:00 on day 0),
because the source reads `new Date()` inside the function. -/
theorem getSmartSchedulingSuggestions_clock_cex :
    getSmartSchedulingSuggestions [] SchedulingOptions.default 36000000 ≠
      getSmartSchedulingSuggestions [] SchedulingOptions.default 72000000 := by
  decide

/-- C10 (amended): `getSmartSchedulingSuggestions` is a pure function of its
arguments and the single internal clock read; in particular, when the caller
supplies `preferredDate`, the result does not depend on the clock read at
all. -/
theorem getSmartSchedulingSuggestions_deterministic (existingTasks : List TaskTimeSlot)
    (options : SchedulingOptions) (d now1 now2 : Int)
    (h : options.preferredDate = some d) :
    getSmartSchedulingSuggestions existingTasks options now1 =
      getSmartSchedulingSuggestions existingTasks options now2 := by
  simp [getSmartSchedulingSuggestions, suggestionsOf, freeSlotsOf, tasksOnDateOf,
    targetDateOf, h]

/-- Witness for `getSmartSchedulingSuggestions_deterministic`: with a
preferred date, two very different clock reads give the same output. -/
theorem getSmartSchedulingSuggestions_deterministic_witness :
    getSmartSchedulingSuggestions [] ⟨some 0, none, none, none⟩ 36000000 =
      getSmartSchedulingSuggestions [] ⟨some 0, none, none, none⟩ 999999999 :=
  getSmartSchedulingSuggestions_deterministic [] ⟨some 0, none, none, none⟩
    0 36000000 999999999 rfl

/-! ## String primitives of the natural-language parser

JS string operations modelled on `List Char`: `toLowerCase` (ASCII),
`includes` (substring search), `trim`, whitespace collapsing, and the
whole-word case-insensitive removals `title.replace(new RegExp('\\b' +
keyword + '\\b', 'gi'), '')`. -/

/-- ASCII lower-casing of one character, as `toLowerCase` acts on the
parser's ASCII vocabulary. -/
def asciiToLower (c : Char) : Char :=
  if 'A' ≤ c ∧ c ≤ 'Z' then Char.ofNat (c.toNat + 32) else c

/-- `input.toLowerCase()` on ASCII text. -/
def jsToLower (s : String) : String := String.mk (s.data.map asciiToLower)

/-- The characters the regex class `\s` matches in the parser's inputs
(space, tab, line feed, carriage return, vertical tab, form feed). -/
def jsIsSpace (c : Char) : Bool :=
  c == ' ' || c == '\t' || c == '\n' || c == '\r' ||
    c == Char.ofNat 11 || c == Char.ofNat 12

/-- The regex word-character class `\w`: `[A-Za-z0-9_]`. -/
def isWordChar (c : Char) : Bool := c.isAlpha || c.isDigit || c == '_'

/-- Exact character-list match at the front. -/
def startsWithChars : List Char → List Char → Bool
  | [], _ => true
  | _ :: _, [] => false
  | a :: as, b :: bs => (a == b) && startsWithChars as bs

/-- Case-insensitive match at the front: the first list is already
lower-case, the second is lower-cased character by character. -/
def startsWithCI : List Char → List Char → Bool
  | [], _ => true
  | _ :: _, [] => false
  | w :: ws, c :: cs => (w == asciiToLower c) && startsWithCI ws cs

/-- Substring occurrence, scanning positions left to right. -/
def substrAt (needle : List Char) : List Char → Bool
  | [] => needle.isEmpty
  | hay@(_ :: rest) => startsWithChars needle hay || substrAt needle rest

/-- `hay.includes(needle)`. -/
def jsIncludes (hay needle : String) : Bool := substrAt needle.data hay.data

/-- `s.trim()`. -/
def jsTrim (s : String) : String :=
  String.mk (((s.data.dropWhile (fun c => jsIsSpace c))
    |>.reverse.dropWhile (fun c => jsIsSpace c)).reverse)

/-- `s.replace(/\s+/g, ' ')`: each whitespace run becomes one space; the
boolean records whether the previous character was whitespace. -/
def collapseSpacesAux : Bool → List Char → List Char
  | _, [] => []
  | prevSpace, c :: rest =>
    if jsIsSpace c then
      if prevSpace then collapseSpacesAux true rest
      else ' ' :: collapseSpacesAux true rest
    else c :: collapseSpacesAux false rest

/-- New boundary test of `\b` placed before a vocabulary word (all our
words start with a word character): start of string or a non-word
character before. -/
def boundaryBeforeOk (prev : Option Char) : Bool :=
  match prev with
  | none => true
  | some p => !(isWordChar p)

/-- `\b` after a vocabulary word (all our words end with a word
character): end of string or a non-word character after. -/
def boundaryAfterOk (rest : List Char) : Bool :=
  match rest with
  | [] => true
  | c :: _ => !(isWordChar c)

/-- First word of the alternation that matches at this position with both
boundaries, in alternation order (as the regex engine tries them). -/
def findWordAt (words : List (List Char)) (prev : Option Char) (cs : List Char) :
    Option (List Char) :=
  words.find? fun w =>
    boundaryBeforeOk prev && startsWithCI w cs && boundaryAfterOk (cs.drop w.length)

/-- One left-to-right pass of `s.replace(/\b(w1|w2|…)\b/gi, '')`: matched
spans are dropped, everything else kept; `prev` is the previous original
character (for the `\b` test), `fuel` bounds the recursion by the input
length. -/
def removeWordsAux (words : List (List Char)) : Nat → Option Char → List Char → List Char
  | 0, _, _ => []
  | _ + 1, _, [] => []
  | fuel + 1, prev, cs@(c :: rest) =>
    match findWordAt words prev cs with
    | some w => removeWordsAux words fuel ((cs.take w.length).getLast?) (cs.drop w.length)
    | none => c :: removeWordsAux words fuel (some c) rest

/-- `s.replace(new RegExp('\\b(' + words + ')\\b', 'gi'), '')`. -/
def jsRemoveWords (words : List String) (s : String) : String :=
  String.mk (removeWordsAux (words.map String.data) s.data.length none s.data)

/-! ## The clock-time pattern

`/(?:at\s+)?(\d{1,2})(?::(\d{2}))?\s*(am|pm|AM|PM)?/g`, embedded as a
hand-compiled matcher: at a given position, an optional literal `at` plus
one or more spaces, one or two digits (greedy), an optional colon with
exactly two digits, any spaces, and an optional meridiem tried in
alternation order. Since everything after the digits is optional and no
backtracking past a greedy quantifier can succeed where the greedy parse
failed (spaces are never digits or letters), the greedy parse is the
regex's parse. -/

def digitVal (c : Char) : Int := (c.toNat : Int) - 48

/-- One match of the clock-time pattern: its length in characters and its
three capture groups (hour digits, optional minute digits, optional
meridiem exactly as written). -/
structure TimeMatch where
  len : Nat
  hour : Int
  minute : Option Int
  ampm : Option String
deriving DecidableEq, Repr

/-- The pattern after the optional `at\s+` prefix, anchored at `cs`;
`pre` is the length already consumed by the prefix. -/
def timeCore (pre : Nat) (cs : List Char) : Option TimeMatch :=
  match cs with
  | [] => none
  | c1 :: rest1 =>
    if c1.isDigit then
      let (hour, restD, nd) :=
        match rest1 with
        | c2 :: rest2 =>
          if c2.isDigit then (digitVal c1 * 10 + digitVal c2, rest2, 2)
          else (digitVal c1, rest1, 1)
        | [] => (digitVal c1, rest1, 1)
      let (minute, restM, nm) :=
        match restD with
        | ':' :: d1 :: d2 :: r =>
          if d1.isDigit ∧ d2.isDigit then
            (some (digitVal d1 * 10 + digitVal d2), r, 3)
          else (none, restD, 0)
        | _ => (none, restD, 0)
      let sp := restM.takeWhile (fun c => jsIsSpace c)
      let restS := restM.drop sp.length
      let ampm :=
        if startsWithChars ['a', 'm'] restS then some "am"
        else if startsWithChars ['p', 'm'] restS then some "pm"
        else if startsWithChars ['A', 'M'] restS then some "AM"
        else if startsWithChars ['P', 'M'] restS then some "PM"
        else none
      some ⟨pre + nd + nm + sp.length + (if ampm.isSome then 2 else 0),
        hour, minute, ampm⟩
    else none

/-- The whole pattern anchored at `cs`: try the optional `at\s+` prefix
first (greedy); if the rest fails after it, fall back to no prefix, as the
regex engine backtracks over the optional group. -/
def timeMatchAt (cs : List Char) : Option TimeMatch :=
  match cs with
  | 'a' :: 't' :: rest =>
    let sp := rest.takeWhile (fun c => jsIsSpace c)
    if sp.isEmpty then timeCore 0 cs
    else
      match timeCore (2 + sp.length) (rest.drop sp.length) with
      | some m => some m
      | none => timeCore 0 cs
  | _ => timeCore 0 cs

/-- `[...input.matchAll(timeRegex)]`: leftmost matches, continuing after
each match's end (every match is at least one character long). -/
def timeMatchAllAux : Nat → List Char → List TimeMatch
  | 0, _ => []
  | _ + 1, [] => []
  | fuel + 1, cs@(_ :: rest) =>
    match timeMatchAt cs with
    | some m => m :: timeMatchAllAux fuel (cs.drop m.len)
    | none => timeMatchAllAux fuel rest

/-- All clock-time matches of the input, in left-to-right order. -/
def timeMatchesOf (input : String) : List TimeMatch :=
  timeMatchAllAux input.data.length input.data

/-- `title.replace(timeRegex, '')`: drop every matched span. -/
def stripTimeAux : Nat → List Char → List Char
  | 0, _ => []
  | _ + 1, [] => []
  | fuel + 1, cs@(c :: rest) =>
    match timeMatchAt cs with
    | some m => stripTimeAux fuel (cs.drop m.len)
    | none => c :: stripTimeAux fuel rest

/-! ## Civil-calendar arithmetic for the date keywords

`date-fns` `addDays` / `addWeeks` move by whole days on the timeline;
`addMonths` converts to a civil date, moves the month, clamps the
day-of-month to the target month's length and keeps the time of day.
The day/civil conversions follow the standard Gregorian-calendar
algorithms on floor division. -/

def isLeapYear (y : Int) : Bool :=
  (y.emod 4 == 0 && !(y.emod 100 == 0)) || y.emod 400 == 0

def daysInMonth (y m : Int) : Int :=
  if m = 2 then (if isLeapYear y then 29 else 28)
  else if m = 4 ∨ m = 6 ∨ m = 9 ∨ m = 11 then 30
  else 31

/-- Days since 1970-01-01 of the civil date `y‑m‑d`. -/
def daysFromCivil (y m d : Int) : Int :=
  let a := (14 - m).ediv 12
  let y2 := y + 4800 - a
  let m2 := m + 12 * a - 3
  d + (153 * m2 + 2).ediv 5 + 365 * y2 + y2.ediv 4 - y2.ediv 100 + y2.ediv 400
    - 32045 - 2440588

/-- The civil date `(year, month, day)` of day number `z` (days since
1970-01-01). -/
def civilFromDays (z : Int) : Int × Int × Int :=
  let z2 := z + 719468
  let era := z2.ediv 146097
  let doe := z2 - era * 146097
  let yoe := (doe - doe.ediv 1460 + doe.ediv 36524 - doe.ediv 146096).ediv 365
  let y := yoe + era * 400
  let doy := doe - (365 * yoe + yoe.ediv 4 - yoe.ediv 100)
  let mp := (5 * doy + 2).ediv 153
  let d := doy - (153 * mp + 2).ediv 5 + 1
  let m := mp + (if mp < 10 then 3 else -9)
  (y + (if m ≤ 2 then 1 else 0), m, d)

/-- `date-fns` `addDays`. -/
def addDays (t n : Int) : Int := t + n * msPerDay

/-- `date-fns` `addWeeks`. -/
def addWeeks (t n : Int) : Int := addDays t (7 * n)

/-- `date-fns` `addMonths`: same day-of-month `n` months later, clamped to
the target month's length, time of day kept. -/
def addMonths (t n : Int) : Int :=
  let z := t.ediv msPerDay
  let msOfDay := t.emod msPerDay
  let c := civilFromDays z
  let total := c.1 * 12 + (c.2.1 - 1) + n
  let y2 := total.ediv 12
  let m2 := total.emod 12 + 1
  let d2 := min c.2.2 (daysInMonth y2 m2)
  daysFromCivil y2 m2 d2 * msPerDay + msOfDay

/-! ## The parser's vocabulary tables, in declaration order -/

def TIME_KEYWORDS : List (String × Int) :=
  [("morning", 9), ("afternoon", 14), ("evening", 18), ("night", 20),
   ("midnight", 0), ("noon", 12)]

def DATE_KEYWORDS : List (String × (Int → Int)) :=
  [("today", fun now => startOfDay now),
   ("tomorrow", fun now => startOfDay (addDays now 1)),
   ("yesterday", fun now => startOfDay (addDays now (-1))),
   ("next week", fun now => startOfDay (addWeeks now 1)),
   ("next month", fun now => startOfDay (addMonths now 1)),
   ("end of week", fun now => endOfDay (addDays now (6 - getDay now))),
   ("end of month", fun now => endOfDay (addMonths now 1))]

def PRIORITY_KEYWORDS : List (String × Priority) :=
  [("low", .low), ("medium", .medium), ("high", .high), ("urgent", .urgent),
   ("important", .high), ("critical", .urgent), ("asap", .urgent)]

def LABEL_KEYWORDS : List String :=
  ["work", "personal", "urgent", "meeting", "call", "email", "shopping",
   "health", "finance", "home", "family", "friends", "travel", "project"]

/-- The connective words removed from the title:
`/\b(at|on|in|for|with|by|due|deadline|priority|label)\b/gi`. -/
def CONNECTING_WORDS : List String :=
  ["at", "on", "in", "for", "with", "by", "due", "deadline", "priority", "label"]

/-! ## `parseNaturalLanguage`

Decomposed into the source's local values: the date keyword scan, the
time extraction (first regex match, else time-of-day keyword), their
combination, the priority scan, the label scan, and the title rewriting
pipeline. The internal `new Date()` read is the explicit `now` argument. -/

/-- The date resolved from the first date keyword (in declaration order)
contained in the lower-cased input. -/
def parsedDateOf (input : String) (now : Int) : Option Int :=
  match DATE_KEYWORDS.find? (fun kv => jsIncludes (jsToLower input) kv.1) with
  | some kv => some (kv.2 now)
  | none => none

/-- The `{hour, minute}` resolved from the first clock-time match (with
the 12-hour adjustment), else from the first time-of-day keyword contained
in the lower-cased input. -/
def parsedTimeOf (input : String) : Option (Int × Int) :=
  match timeMatchesOf input with
  | m :: _ =>
    let hour := m.hour
    let minute := m.minute.getD 0
    let ampm := m.ampm.map jsToLower
    let adjustedHour :=
      if ampm = some "pm" ∧ hour ≠ 12 then hour + 12
      else if ampm = some "am" ∧ hour = 12 then 0
      else hour
    some (adjustedHour, minute)
  | [] =>
    match TIME_KEYWORDS.find? (fun kv => jsIncludes (jsToLower input) kv.1) with
    | some kv => some (kv.2, 0)
    | none => none

/-- Date and time combined into the final due date: a resolved date gets
the resolved time applied on top; a time alone is anchored to `now`. -/
def finalDateOf (input : String) (now : Int) : Option Int :=
  match parsedDateOf input now, parsedTimeOf input with
  | some d, some tm => some (setHours (setMinutes d tm.2) tm.1)
  | some d, none => some d
  | none, some tm => some (setHours (setMinutes now tm.2) tm.1)
  | none, none => none

/-- The first priority keyword (in declaration order) contained in the
lower-cased input. -/
def priorityOf (input : String) : Option Priority :=
  (PRIORITY_KEYWORDS.find? (fun kv => jsIncludes (jsToLower input) kv.1)).map
    (fun kv => kv.2)

/-- Every label keyword contained (as a substring) in the lower-cased
input, in vocabulary order. -/
def labelsOf (input : String) : List String :=
  LABEL_KEYWORDS.filter (fun l => jsIncludes (jsToLower input) l)

/-- The title pipeline before the emptiness fallback: strip time matches,
then each date, priority and label keyword (whole-word, case-insensitive,
trimming after each), then the connective words, then collapse
whitespace. -/
def titleStripped (input : String) : String :=
  let t0 := jsTrim (String.mk (stripTimeAux input.data.length input.data))
  let t1 := (DATE_KEYWORDS.map (fun kv => kv.1)).foldl
    (fun acc kw => jsTrim (jsRemoveWords [kw] acc)) t0
  let t2 := (PRIORITY_KEYWORDS.map (fun kv => kv.1)).foldl
    (fun acc kw => jsTrim (jsRemoveWords [kw] acc)) t1
  let t3 := LABEL_KEYWORDS.foldl (fun acc kw => jsTrim (jsRemoveWords [kw] acc)) t2
  let t4 := jsTrim (jsRemoveWords CONNECTING_WORDS t3)
  jsTrim (String.mk (collapseSpacesAux false t4.data))

/-- The final title: the stripped input, or `"New Task"` when stripping
leaves nothing. -/
def titleOf (input : String) : String :=
  let t := titleStripped input
  if t = "" then "New Task" else t

/-- `ParsedTaskData`: the parser's result record. `description` and
`deadline` are declared by the interface but never produced. -/
structure ParsedTaskData where
  title : String
  description : Option String
  dueDate : Option Int
  deadline : Option Int
  priority : Priority
  labels : Option (List String)
deriving DecidableEq, Repr

/-- `parseNaturalLanguage(input)`; the internal `new Date()` read is the
explicit argument `now`. -/
def parseNaturalLanguage (input : String) (now : Int) : ParsedTaskData :=
  ⟨titleOf input, none, finalDateOf input now, none,
    (priorityOf input).getD .medium,
    if (labelsOf input).length > 0 then some (labelsOf input) else none⟩

/-- Modelled from the spec: a whole-word occurrence of `w` (bounded on
both sides by non-word characters or the string's edges), scanned left to
right; `prev` is the previous character. -/
def wholeWordAux (w : List Char) (prev : Option Char) : List Char → Bool
  | [] => false
  | cs@(c :: rest) =>
    (boundaryBeforeOk prev && startsWithChars w cs &&
      boundaryAfterOk (cs.drop w.length)) || wholeWordAux w (some c) rest

/-- Modelled from the spec: `word` occurs in `s` as a whole-word match,
"bounded by non-word-character boundaries". -/
def specWholeWordOccurs (word : String) (s : String) : Bool :=
  wholeWordAux word.data none s.data

/-- Modelled from the spec: the day number of the last day of "the month
after the current one", the spec's reading of "end of month" relative to
`now`. -/
def specEndOfNextMonthDay (now : Int) : Int :=
  let c := civilFromDays (now.ediv msPerDay)
  let total := c.1 * 12 + (c.2.1 - 1) + 1
  let y2 := total.ediv 12
  let m2 := total.emod 12 + 1
  daysFromCivil y2 m2 (daysInMonth y2 m2)

/-! ## Time-of-day extraction (C6) -/

/-- C6: when the input has a clock-time pattern match, the parser's
time-of-day comes from the first match in left-to-right order, and the
12-hour conversion maps hour 12 with `am` to 0, keeps hour 12 with `pm`,
adds 12 to any other hour with `pm`, and keeps an hour with no meridiem
marker exactly as written. -/
theorem parsedTimeOf_first_match (s : String) (m : TimeMatch) (rest : List TimeMatch)
    (hm : timeMatchesOf s = m :: rest) :
    ∃ h : Int, parsedTimeOf s = some (h, m.minute.getD 0) ∧
      (m.ampm.map jsToLower = some "am" ∧ m.hour = 12 → h = 0) ∧
      (m.ampm.map jsToLower = some "pm" ∧ m.hour = 12 → h = 12) ∧
      (m.ampm.map jsToLower = some "pm" ∧ m.hour ≠ 12 → h = m.hour + 12) ∧
      (m.ampm = none → h = m.hour) := by
  refine ⟨if m.ampm.map jsToLower = some "pm" ∧ m.hour ≠ 12 then m.hour + 12
    else if m.ampm.map jsToLower = some "am" ∧ m.hour = 12 then 0 else m.hour,
    ?_, ?_, ?_, ?_, ?_⟩
  · unfold parsedTimeOf
    rw [hm]
  · rintro ⟨h1, h2⟩
    simp [h1, h2]
  · rintro ⟨h1, h2⟩
    simp [h1, h2]
  · rintro ⟨h1, h2⟩
    simp [h1, h2]
  · intro h1
    simp [h1]

/-- Witness for `parsedTimeOf_first_match`: `"at 3pm"` has the single
match `3pm` and resolves to 15:00. -/
theorem parsedTimeOf_first_match_witness : parsedTimeOf "at 3pm" = some (15, 0) := by
  obtain ⟨h, h1, h2, h3, h4, h5⟩ :=
    parsedTimeOf_first_match "at 3pm" ⟨6, 3, none, some "pm"⟩ [] (by decide)
  have hh : h = 15 := by
    simpa using h4 ⟨by decide, by decide⟩
  rw [hh] at h1
  simpa using h1

/-! ## The "end of month" date keyword (C7) -/

/-- C7 (amended): for an input containing "end of month", no
earlier-declared date keyword and no time pattern or time keyword, the
resolved due date is `endOfDay(addMonths(now, 1))` — 23:59:59.999 on the
same day-of-month one month ahead (clamped), not the end of the following
month. -/
theorem parseNaturalLanguage_end_of_month (s : String) (now : Int)
    (hx : jsIncludes (jsToLower s) "end of month" = true)
    (h1 : jsIncludes (jsToLower s) "today" = false)
    (h2 : jsIncludes (jsToLower s) "tomorrow" = false)
    (h3 : jsIncludes (jsToLower s) "yesterday" = false)
    (h4 : jsIncludes (jsToLower s) "next week" = false)
    (h5 : jsIncludes (jsToLower s) "next month" = false)
    (h6 : jsIncludes (jsToLower s) "end of week" = false)
    (ht : timeMatchesOf s = [])
    (hk1 : jsIncludes (jsToLower s) "morning" = false)
    (hk2 : jsIncludes (jsToLower s) "afternoon" = false)
    (hk3 : jsIncludes (jsToLower s) "evening" = false)
    (hk4 : jsIncludes (jsToLower s) "night" = false)
    (hk5 : jsIncludes (jsToLower s) "midnight" = false)
    (hk6 : jsIncludes (jsToLower s) "noon" = false) :
    (parseNaturalLanguage s now).dueDate = some (endOfDay (addMonths now 1)) := by
  have hd : parsedDateOf s now = some (endOfDay (addMonths now 1)) := by
    unfold parsedDateOf DATE_KEYWORDS
    simp [h1, h2, h3, h4, h5, h6, hx]
  have htm : parsedTimeOf s = none := by
    unfold parsedTimeOf TIME_KEYWORDS
    rw [ht]
    simp [hk1, hk2, hk3, hk4, hk5, hk6]
  show finalDateOf s now = some (endOfDay (addMonths now 1))
  unfold finalDateOf
  rw [hd, htm]

/-- Witness for `parseNaturalLanguage_end_of_month` at the input
`"end of month"` and `now = 0`. -/
theorem parseNaturalLanguage_end_of_month_witness :
    (parseNaturalLanguage "end of month" 0).dueDate = some (endOfDay (addMonths 0 1)) :=
  parseNaturalLanguage_end_of_month "end of month" 0 (by decide) (by decide)
    (by decide) (by decide) (by decide) (by decide) (by decide) (by decide)
    (by decide) (by decide) (by decide) (by decide) (by decide) (by decide)

/-- Counterexample to C7 as stated: with `now` = 2026-10-11, the input
`"end of month"` resolves to the end of the *day* 2026-11-11 — the same
day-of-month one month ahead — not to the end of the month after the
current one (2026-11-30). -/
theorem parseNaturalLanguage_end_of_month_cex :
    ((parseNaturalLanguage "end of month" (daysFromCivil 2026 10 11 * msPerDay)).dueDate.map
      (fun d => d.ediv msPerDay)) = some (daysFromCivil 2026 11 11) ∧
    daysFromCivil 2026 11 11 ≠
      specEndOfNextMonthDay (daysFromCivil 2026 10 11 * msPerDay) := by
  decide

/-! ## Label extraction (C8) -/

/-- C8 (amended): a vocabulary word is in the parser's label list exactly
when it occurs as a *substring* of the lower-cased input (the code uses
`includes`, not a whole-word match); the list follows vocabulary order,
and `labels` is that list, or absent when it is empty. -/
theorem labelsOf_substring_spec (s : String) (now : Int) :
    (∀ w : String, w ∈ labelsOf s ↔
      w ∈ LABEL_KEYWORDS ∧ jsIncludes (jsToLower s) w = true) ∧
    List.Sublist (labelsOf s) LABEL_KEYWORDS ∧
    (parseNaturalLanguage s now).labels =
      (if (labelsOf s).length > 0 then some (labelsOf s) else none) := by
  refine ⟨?_, ?_, rfl⟩
  · intro w
    simp [labelsOf, List.mem_filter]
  · exact List.filter_sublist _

/-- Counterexample to C8 as stated: `"networking"` contains no whole-word
occurrence of any label keyword, yet the parser labels it `["work"]`
(substring match inside "networking"). -/
theorem labelsOf_whole_word_cex :
    (parseNaturalLanguage "networking" 0).labels = some ["work"] ∧
    specWholeWordOccurs "work" (jsToLower "networking") = false := by
  decide

/-! ## Empty input and title fallback (C9) -/

set_option maxRecDepth 16000 in
/-- C9: parsing the empty string yields the placeholder title
`"New Task"`, priority `medium`, and no due date or labels; and for every
input the returned title is non-empty. -/
theorem parseNaturalLanguage_title_spec :
    (∀ now : Int, parseNaturalLanguage "" now =
      ⟨"New Task", none, none, none, .medium, none⟩) ∧
    (∀ (s : String) (now : Int), (parseNaturalLanguage s now).title ≠ "") := by
  constructor
  · intro now
    have hfind : DATE_KEYWORDS.find? (fun kv => jsIncludes (jsToLower "") kv.1) = none := by
      rw [List.find?_eq_none]
      intro x hx
      fin_cases hx <;> decide
    have hpt : parsedTimeOf "" = none := by decide
    have hfd : finalDateOf "" now = none := by
      unfold finalDateOf parsedDateOf
      rw [hfind, hpt]
    show ParsedTaskData.mk (titleOf "") none (finalDateOf "" now) none
      ((priorityOf "").getD .medium)
      (if (labelsOf "").length > 0 then some (labelsOf "") else none) = _
    rw [hfd]
    decide
  · intro s now
    simp only [parseNaturalLanguage]
    unfold titleOf
    rcases eq_or_ne (titleStripped s) "" with h | h
    · simp [h]
    · simp [h]

end Todo
